import Mathlib

/-!
Verification of the matching-and-installation pipeline of help-me-ai.

Shallow embedding conventions:
* Filesystem paths are lists of segments; node's `path.join(a, b)` is
  modelled as appending the segment `b` to the segment list `a`.
* The filesystem is an association list from paths to file contents;
  `fs.writeFile` is an upsert (`writeFS`), `mkdir -p` is a no-op because
  directories are implicit in the path keys.
* Calls into the external `semver` library (`coerce`, `satisfies`) are
  parameters of type `JSResult`: a JS call either returns a value (`ok`)
  or throws (`error`).  The `try`/`catch` blocks of the source are
  embedded explicitly; a thrown error is swallowed exactly where the
  source catches it.
* `Map` iteration (the downloader's files map) is a list of
  key/value pairs in insertion order; the downloader always produces the
  singleton map `{"content" ↦ body}` (`downloaderFiles`).
* Fallible effects inside `performInstallation` (content fetch, the
  installer throwing on a filesystem error) are injected through the
  oracles `fetch` and `fault`; a `fault` for a (skill, target) pair means
  the corresponding `installSkill` call throws before writing.
-/

namespace HelpMeAI

/-- A filesystem path, as a list of segments (`path.join` appends segments). -/
abbrev Path := List String

/-- Outcome of a call into external JS code: return a value or throw. -/
abbrev JSResult (α : Type) := Except String α

/-- `Dependency` from src/types.ts. -/
structure Dependency where
  name : String
  version : String
  isDev : Bool
  deriving Repr, DecidableEq

/-- One entry of `skill.matchingLibraries` as read by src/matcher.ts
(`{ name, versionRange }`). -/
structure MatchingLibrary where
  name : String
  versionRange : String
  deriving Repr, DecidableEq

/-- `Skill` from src/types.ts, extended with the `matchingLibraries` field
that `SkillMatcher.findMatchingDependency` actually reads (src/matcher.ts
line 32); the declared type in types.ts only carries the singular
`library`/`versionRange` pair. -/
structure Skill where
  id : String
  name : String
  description : String
  library : String
  versionRange : String
  path : String
  matchingLibraries : List MatchingLibrary
  deriving Repr, DecidableEq

/-- `SkillsIndex` from src/types.ts. -/
structure SkillsIndex where
  version : String
  skills : List Skill
  deriving Repr, DecidableEq

/-- `MatchedSkill` from src/types.ts. -/
structure MatchedSkill where
  skill : Skill
  dependency : Dependency
  deriving Repr, DecidableEq

/-- `TargetType` from src/types.ts. -/
inductive TargetType where
  | cursor
  | claude
  deriving Repr, DecidableEq

/-- `Target` from src/types.ts. -/
structure Target where
  type : TargetType
  path : Path
  detected : Bool
  deriving Repr, DecidableEq

/-- `SkillMatcher.versionMatches` (src/matcher.ts lines 48-75),
parameterized by the semver primitives.  The first `try` block computes
`coerce(version)` and, when coercion yields a version, asks
`satisfies(coerced, range)`; a thrown error or a falsy result falls
through to the second `try` block, which asks `satisfies(version, range)`
on the raw string; a thrown error there falls through to `return false`. -/
def versionMatches (coerce : String → JSResult (Option String))
    (sat : String → String → JSResult Bool)
    (version range : String) : Bool :=
  if range = "*" then true
  else
    let attempt1 : Bool :=
      match coerce version with
      | .ok (some coercedVersion) =>
        match sat coercedVersion range with
        | .ok b => b
        | .error _ => false
      | .ok none => false
      | .error _ => false
    if attempt1 then true
    else
      match sat version range with
      | .ok b => b
      | .error _ => false

/-- The test applied to one dependency for one matching-library entry
(src/matcher.ts lines 34-38). -/
def depMatches (coerce : String → JSResult (Option String))
    (sat : String → String → JSResult Bool)
    (ml : MatchingLibrary) (d : Dependency) : Bool :=
  d.name == ml.name && versionMatches coerce sat d.version ml.versionRange

/-- The outer loop of `SkillMatcher.findMatchingDependency`
(src/matcher.ts lines 31-42): scan matching-library entries in order and,
for each, scan the dependencies in order; the first hit wins. -/
def findAcrossLibraries (coerce : String → JSResult (Option String))
    (sat : String → String → JSResult Bool)
    (dependencies : List Dependency) : List MatchingLibrary → Option Dependency
  | [] => none
  | ml :: rest =>
    match dependencies.find? (depMatches coerce sat ml) with
    | some d => some d
    | none => findAcrossLibraries coerce sat dependencies rest

/-- `SkillMatcher.findMatchingDependency` (src/matcher.ts lines 27-43). -/
def findMatchingDependency (coerce : String → JSResult (Option String))
    (sat : String → String → JSResult Bool)
    (skill : Skill) (dependencies : List Dependency) : Option Dependency :=
  findAcrossLibraries coerce sat dependencies skill.matchingLibraries

/-- `SkillMatcher.matchSkills` (src/matcher.ts lines 11-22): for each
skill of the index in order, push `{skill, dependency}` when a matching
dependency is found. -/
def matchSkills (coerce : String → JSResult (Option String))
    (sat : String → String → JSResult Bool)
    (dependencies : List Dependency) (index : SkillsIndex) : List MatchedSkill :=
  index.skills.filterMap (fun skill =>
    (findMatchingDependency coerce sat skill dependencies).map
      (fun d => MatchedSkill.mk skill d))

/-- The filesystem: an association list from paths to file contents. -/
abbrev FS := List (Path × String)

/-- `fs.writeFile` semantics: overwrite the entry for the path when it
exists, otherwise create it. -/
def writeFS : FS → Path → String → FS
  | [], p, c => [(p, c)]
  | e :: rest, p, c => if e.1 = p then (p, c) :: rest else e :: writeFS rest p c

/-- Read a file back from the modelled filesystem. -/
def lookupFS : FS → Path → Option String
  | [], _ => none
  | e :: rest, p => if e.1 = p then some e.2 else lookupFS rest p

/-- `join(target.path, skill.id)` — src/installer.ts line 48. -/
def skillDirectory (skill : Skill) (target : Target) : Path :=
  target.path ++ [skill.id]

/-- `join(skillDirectory, 'SKILL.md')` — src/installer.ts line 54. -/
def skillFilePath (skill : Skill) (target : Target) : Path :=
  skillDirectory skill target ++ ["SKILL.md"]

/-- The files map produced by `SkillDownloader.fetchSkillContent`
(src/downloader.ts lines 36-60): always the single entry
`'content' ↦ body`. -/
def downloaderFiles (content : String) : List (String × String) :=
  [("content", content)]

/-- `SkillInstaller.installSkill` (src/installer.ts lines 40-60): ensure
the per-skill directory `<target.path>/<skill.id>/` (a no-op in the FS
model), then for each entry of the files map write its content as
`SKILL.md` inside that directory, collecting the written paths. -/
def installSkill (fs : FS) (skill : Skill) (files : List (String × String))
    (target : Target) : FS × List Path :=
  files.foldl
    (fun acc file =>
      (writeFS acc.1 (skillFilePath skill target) file.2,
       acc.2 ++ [skillFilePath skill target]))
    (fs, [])

/-- Result of the per-skill target loop: final filesystem, paths pushed
onto `installedFiles`, and the error thrown by the first failing
`installSkill` call (if any). -/
structure TargetsResult where
  fs : FS
  paths : List Path
  error : Option String
  deriving Repr, DecidableEq

/-- The inner `for (const target of targets)` loop of
`performInstallation` (src/index.tsx lines 336-339).  A `fault` for
(skill, target) models `installer.installSkill` throwing: the exception
propagates to the per-skill `catch`, so the remaining targets are not
visited; paths pushed before the failure are kept. -/
def installToTargets (fault : Skill → Target → Option String) (skill : Skill)
    (files : List (String × String)) : List Target → FS → TargetsResult
  | [], fs => ⟨fs, [], none⟩
  | t :: ts, fs =>
    match fault skill t with
    | some e => ⟨fs, [], some e⟩
    | none =>
      let w := installSkill fs skill files t
      let rest := installToTargets fault skill files ts w.1
      ⟨rest.fs, w.2 ++ rest.paths, rest.error⟩

/-- The console.error message of the per-skill catch
(src/index.tsx line 343). -/
def failureMessage (skill : Skill) (e : String) : String :=
  "Failed to install " ++ skill.name ++ ": " ++ e

/-- Aggregate result of `performInstallation`: final filesystem,
`successCount`, `installedFiles`, and the `console.error` log. -/
structure RunResult where
  fs : FS
  count : Nat
  installedFiles : List Path
  errors : List String
  deriving Repr, DecidableEq

/-- The skill loop of `performInstallation` (src/index.tsx lines
330-345): for each selected skill fetch its content; on a fetch error
log and continue with the next skill; otherwise install to each target
in order (stopping that skill's targets at the first thrown write) and
increment `successCount` only when no exception occurred for the skill. -/
def performInstallation (fetch : Skill → JSResult (List (String × String)))
    (fault : Skill → Target → Option String) :
    List MatchedSkill → List Target → FS → RunResult
  | [], _, fs => ⟨fs, 0, [], []⟩
  | m :: ms, targets, fs =>
    match fetch m.skill with
    | .error e =>
      let rest := performInstallation fetch fault ms targets fs
      ⟨rest.fs, rest.count, rest.installedFiles,
       failureMessage m.skill e :: rest.errors⟩
    | .ok files =>
      let w := installToTargets fault m.skill files targets fs
      let rest := performInstallation fetch fault ms targets w.fs
      match w.error with
      | none =>
        ⟨rest.fs, rest.count + 1, w.paths ++ rest.installedFiles, rest.errors⟩
      | some e =>
        ⟨rest.fs, rest.count, w.paths ++ rest.installedFiles,
         failureMessage m.skill e :: rest.errors⟩

/-- The `AppState` union of src/index.tsx (lines 23-33); states not
reached by the verified claims carry their payloads unchanged. -/
inductive AppState where
  | parsing
  | fetching
  | noPackages
  | noSkills
  | noTargets (skills : List MatchedSkill)
  | selecting (skills : List MatchedSkill) (targets : List Target)
  | listOnly (skills : List MatchedSkill)
  | installing (selectedSkills : List MatchedSkill) (targets : List Target)
  | done (count : Nat) (installedFiles : List Path)
  | error (message : String)
  deriving Repr, DecidableEq

/-- The `onSubmit` handler of the selecting state (src/index.tsx lines
153-164): an empty confirmed subset goes straight to `done 0 []`,
otherwise to `installing`. -/
def onSubmitSelection (selectedItems : List MatchedSkill)
    (targets : List Target) : AppState :=
  if selectedItems.length = 0 then .done 0 []
  else .installing selectedItems targets

/-- The Enter branch of `MultiSelectCheckbox`'s input handler
(src/components/MultiSelectCheckbox.tsx lines 42-45): keep the items
whose index is in the selected set and submit their values. -/
def checkboxSubmit {α : Type} (items : List (String × α))
    (selected : List Nat) : List α :=
  ((items.enum).filter (fun p => selected.contains p.1)).map (fun p => p.2.2)

/-- The installation effect (src/index.tsx lines 50-54 and 313-354): it
fires only in the `installing` state, runs `performInstallation`, and
ends in `done` with the success count and the flattened written paths;
every other state is left unchanged and touches no files. -/
def runInstallingState (fetch : Skill → JSResult (List (String × String)))
    (fault : Skill → Target → Option String) (st : AppState) (fs : FS) :
    AppState × FS :=
  match st with
  | .installing selectedSkills targets =>
    let r := performInstallation fetch fault selectedSkills targets fs
    (.done r.count r.installedFiles, r.fs)
  | st => (st, fs)

/-- Composition of confirming a selection and the installation effect. -/
def runFromSubmit (fetch : Skill → JSResult (List (String × String)))
    (fault : Skill → Target → Option String)
    (selectedItems : List MatchedSkill) (targets : List Target) (fs : FS) :
    AppState × FS :=
  runInstallingState fetch fault (onSubmitSelection selectedItems targets) fs

/-- Whether an external call returned normally. -/
def exceptOk {α : Type} : JSResult α → Bool
  | .ok _ => true
  | .error _ => false

/-- The path keys present in the modelled filesystem. -/
def keysFS (fs : FS) : List Path :=
  fs.map Prod.fst

/-- The pair of fields of a dependency the matcher actually inspects. -/
def depKey (d : Dependency) : String × String := (d.name, d.version)

/-! ### Concrete fixtures used to instantiate claims -/

/-- A `coerce` primitive that never coerces (used to instantiate
claims at concrete inputs). -/
def coerceNone : String → JSResult (Option String) := fun _ => .ok none

/-- A `satisfies` primitive that never satisfies (used to instantiate
claims at concrete inputs). -/
def satNever : String → String → JSResult Bool := fun _ _ => .ok false

/-- Sample skill requiring `react` at any version. -/
def skillReact : Skill :=
  ⟨"react-skill", "React Skill", "React guidance", "react", "*",
   "skills/react-skill.md", [⟨"react", "*"⟩]⟩

/-- Sample skill requiring `vue` at any version. -/
def skillVue : Skill :=
  ⟨"vue-skill", "Vue Skill", "Vue guidance", "vue", "*",
   "skills/vue-skill.md", [⟨"vue", "*"⟩]⟩

/-- Sample registry index holding the two sample skills. -/
def idxTest : SkillsIndex := ⟨"1.0.0", [skillReact, skillVue]⟩

/-- Sample dependency on `react`. -/
def depReact : Dependency := ⟨"react", "18.2.0", false⟩

/-- The dependency `depReact` with its `isDev` flag flipped. -/
def depReactDev : Dependency := ⟨"react", "18.2.0", true⟩

/-- Sample skill used for the installation-path claims. -/
def skillNested : Skill :=
  ⟨"zod-validation", "Zod Validation", "Zod guidance", "zod", ">=3.0.0",
   "skills/zod-validation.md", [⟨"zod", ">=3.0.0"⟩]⟩

/-- Sample `.cursor` target. -/
def targetCursor : Target :=
  ⟨.cursor, ["proj", ".cursor", "skills"], true⟩

/-- Sample skill used for the C1 counterexample. -/
def skillRQ : Skill :=
  ⟨"react-query-v5", "React Query", "RQ guidance", "@tanstack/react-query",
   ">=5.0.0", "skills/react-query-v5.md", [⟨"@tanstack/react-query", ">=5.0.0"⟩]⟩

/-- The C1 counterexample's matched skill. -/
def matchRQ : MatchedSkill := ⟨skillRQ, depReact⟩

/-- First target of the C1 counterexample (its write throws). -/
def targetW1 : Target := ⟨.cursor, ["app", ".cursor", "skills"], true⟩

/-- Second target of the C1 counterexample (never reached). -/
def targetW2 : Target := ⟨.claude, ["app", ".claude", "skills"], false⟩

/-- Fetch oracle of the C1 counterexample: always succeeds. -/
def fetchRQ : Skill → JSResult (List (String × String)) :=
  fun _ => .ok (downloaderFiles "RQ-BODY")

/-- Fault oracle of the C1 counterexample: the write to `targetW1`
throws, every other write succeeds. -/
def faultFirst : Skill → Target → Option String :=
  fun _ t => if t = targetW1 then some "EACCES" else none

/-- Sample skill used for the C3 counterexample. -/
def skillZu : Skill :=
  ⟨"zustand-state", "Zustand State", "Zustand guidance", "zustand",
   ">=4.0.0", "skills/zustand-state.md", [⟨"zustand", ">=4.0.0"⟩]⟩

/-- The C3 counterexample's matched skill. -/
def matchZu : MatchedSkill := ⟨skillZu, depReact⟩

/-- First target of the C3 counterexample (its write throws). -/
def targetZ1 : Target := ⟨.cursor, ["web", ".cursor", "skills"], true⟩

/-- Second target of the C3 counterexample (never reached). -/
def targetZ2 : Target := ⟨.claude, ["web", ".claude", "skills"], true⟩

/-- Fetch oracle of the C3 counterexample: always succeeds. -/
def fetchZu : Skill → JSResult (List (String × String)) :=
  fun _ => .ok (downloaderFiles "ZU-BODY")

/-- Fault oracle of the C3 counterexample: the write to `targetZ1`
throws, every other write succeeds. -/
def faultZ : Skill → Target → Option String :=
  fun _ t => if t = targetZ1 then some "ENOSPC" else none

/-- Skill whose fetch fails in the C4 witness. -/
def skillA : Skill :=
  ⟨"skill-a", "Skill A", "guidance A", "lib-a", "*",
   "skills/skill-a.md", [⟨"lib-a", "*"⟩]⟩

/-- Skill whose fetch succeeds in the C4 witness. -/
def skillB : Skill :=
  ⟨"skill-b", "Skill B", "guidance B", "lib-b", "*",
   "skills/skill-b.md", [⟨"lib-b", "*"⟩]⟩

/-- Fetch oracle of the C4 witness: fails for `skill-a`, succeeds
otherwise. -/
def fetchAB : Skill → JSResult (List (String × String)) :=
  fun s => if s.id = "skill-a" then .error "HTTP 404" else .ok (downloaderFiles "B-BODY")

/-- Fault oracle that never throws. -/
def faultNone : Skill → Target → Option String := fun _ _ => none

/-! ## Claims about the version matcher -/

/-- C6: for every version string `v`, including empty and unparseable
strings, and for arbitrary behaviour of the semver primitives,
`versionMatches v "*"` returns `true`. -/
theorem versionMatches_wildcard_always_true
    (coerce : String → JSResult (Option String))
    (sat : String → String → JSResult Bool) (v : String) :
    versionMatches coerce sat v "*" = true := by
  simp [versionMatches]

/-- C7: for every version string `v` on which both attempts fail — the
coerced attempt does not evaluate to a satisfied range (coercion throws,
yields nothing, or `satisfies` on the coerced version throws or is
falsy) and the raw-string retry throws or is falsy — and every range
other than `"*"`, `versionMatches` returns `false`; thrown errors are
swallowed and degrade to no-match rather than propagating. -/
theorem versionMatches_malformed_no_match
    (coerce : String → JSResult (Option String))
    (sat : String → String → JSResult Bool) (v range : String)
    (hr : range ≠ "*")
    (h1 : ∀ cv, coerce v = .ok (some cv) → sat cv range ≠ .ok true)
    (h2 : sat v range ≠ .ok true) :
    versionMatches coerce sat v range = false := by
  unfold versionMatches
  rw [if_neg hr]
  have hA : (match coerce v with
      | .ok (some coercedVersion) =>
        match sat coercedVersion range with
        | .ok b => b
        | .error _ => false
      | .ok none => false
      | .error _ => false) = false := by
    cases hco : coerce v with
    | error e => rfl
    | ok o =>
      cases o with
      | none => rfl
      | some cv =>
        cases hs : sat cv range with
        | error e => simp [hs]
        | ok b =>
          cases b with
          | false => simp [hs]
          | true => exact absurd hs (h1 cv hco)
  rw [hA]
  simp only [if_neg (by simp : ¬ (false = true))]
  cases hs : sat v range with
  | error e => rfl
  | ok b =>
    cases b with
    | false => rfl
    | true => exact absurd hs h2

/-- Witness for C7 at a concrete malformed input: both semver primitives
throw, the range is not the wildcard, and the result is `false`. -/
theorem versionMatches_malformed_no_match_witness :
    versionMatches (fun _ => .error "invalid version")
      (fun _ _ => .error "invalid range") "not-a-version" ">=1.0.0" = false :=
  versionMatches_malformed_no_match _ _ _ _ (by decide)
    (fun _ h => by exact absurd h (by simp))
    (by simp)

/-! ## Claims about the skill matcher -/

/-- A matching dependency exists iff some matching-library entry has some
satisfying dependency. -/
theorem findAcrossLibraries_isSome_iff
    (coerce : String → JSResult (Option String))
    (sat : String → String → JSResult Bool)
    (deps : List Dependency) (mls : List MatchingLibrary) :
    (findAcrossLibraries coerce sat deps mls).isSome = true ↔
      ∃ ml ∈ mls, ∃ d ∈ deps, depMatches coerce sat ml d := by
  induction mls with
  | nil => simp [findAcrossLibraries]
  | cons ml rest ih =>
    unfold findAcrossLibraries
    cases hf : deps.find? (depMatches coerce sat ml) with
    | none =>
      simp only [ih]
      constructor
      · intro ⟨ml', hml', hd⟩
        exact ⟨ml', List.mem_cons_of_mem _ hml', hd⟩
      · rintro ⟨ml', hml', d, hd, hmatch⟩
        rcases List.mem_cons.mp hml' with rfl | hml'
        · exact absurd hmatch (by
            have := List.find?_eq_none.mp hf d hd
            simpa using this)
        · exact ⟨ml', hml', d, hd, hmatch⟩
    | some d =>
      simp only [Option.isSome_some, true_iff]
      exact ⟨ml, List.mem_cons_self _ _,
        d, List.mem_of_find?_eq_some hf, List.find?_some hf⟩

/-- Equality of booleans from equivalence of their truth. -/
theorem bool_eq_of_iff {a b : Bool} (h : a = true ↔ b = true) : a = b := by
  cases a <;> cases b <;> simp_all

/-- Mapping a constant over options with equally present values. -/
theorem option_map_const_eq {α β : Type} {o₁ o₂ : Option α}
    (h : o₁.isSome = o₂.isSome) (s : β) :
    o₁.map (fun _ => s) = o₂.map (fun _ => s) := by
  cases o₁ <;> cases o₂ <;> simp_all

/-- C5: when every skill of the index carries a single matching-library
requirement (the singular `library`/`versionRange` shape declared in
src/types.ts), `matchSkills` returns, in index order with each skill
appearing at most once, each skill paired with the first dependency in
the given list whose name equals the skill's required library name and
whose version satisfies its range, silently excluding skills with no
satisfying dependency; and the sequence of matched skills is independent
of the order of the dependency list. -/
theorem matchSkills_index_order_first_dependency
    (coerce : String → JSResult (Option String))
    (sat : String → String → JSResult Bool)
    (deps : List Dependency) (idx : SkillsIndex)
    (hsing : ∀ s ∈ idx.skills, ∃ ml, s.matchingLibraries = [ml]) :
    matchSkills coerce sat deps idx =
      idx.skills.filterMap (fun s =>
        match s.matchingLibraries with
        | [ml] => (deps.find? (depMatches coerce sat ml)).map
            (fun d => MatchedSkill.mk s d)
        | _ => none)
    ∧ ∀ deps' : List Dependency, deps.Perm deps' →
        (matchSkills coerce sat deps' idx).map (fun m => m.skill)
          = (matchSkills coerce sat deps idx).map (fun m => m.skill) := by
  constructor
  · unfold matchSkills
    apply List.filterMap_congr
    intro s hs
    obtain ⟨ml, hml⟩ := hsing s hs
    rw [findMatchingDependency, hml]
    unfold findAcrossLibraries
    cases hf : deps.find? (depMatches coerce sat ml) with
    | none => simp [findAcrossLibraries, hf]
    | some d => simp [hf]
  · intro deps' hperm
    unfold matchSkills
    rw [List.map_filterMap, List.map_filterMap]
    apply List.filterMap_congr
    intro s _
    have hmm : ∀ ds : List Dependency,
        ((findMatchingDependency coerce sat s ds).map
          (fun d => MatchedSkill.mk s d)).map (fun m => m.skill)
        = (findMatchingDependency coerce sat s ds).map (fun _ => s) := by
      intro ds
      cases findMatchingDependency coerce sat s ds <;> rfl
    rw [hmm, hmm]
    apply option_map_const_eq
    apply bool_eq_of_iff
    rw [findMatchingDependency, findMatchingDependency,
      findAcrossLibraries_isSome_iff, findAcrossLibraries_isSome_iff]
    constructor
    · rintro ⟨ml, hml, d, hd, hm⟩
      exact ⟨ml, hml, d, hperm.mem_iff.mpr hd, hm⟩
    · rintro ⟨ml, hml, d, hd, hm⟩
      exact ⟨ml, hml, d, hperm.mem_iff.mp hd, hm⟩

/-- Witness for C5 at a concrete singular-requirement index. -/
theorem matchSkills_index_order_first_dependency_witness :
    matchSkills coerceNone satNever [depReact] idxTest =
      idxTest.skills.filterMap (fun s =>
        match s.matchingLibraries with
        | [ml] => ([depReact].find? (depMatches coerceNone satNever ml)).map
            (fun d => MatchedSkill.mk s d)
        | _ => none) :=
  (matchSkills_index_order_first_dependency coerceNone satNever [depReact]
    idxTest (by
      intro s hs
      simp only [idxTest, skillReact, skillVue, List.mem_cons,
        List.not_mem_nil, or_false] at hs
      rcases hs with rfl | rfl
      · exact ⟨_, rfl⟩
      · exact ⟨_, rfl⟩)).1

/-- The matcher's per-dependency test factors through `depKey`. -/
theorem find?_depMatches_map_depKey
    (coerce : String → JSResult (Option String))
    (sat : String → String → JSResult Bool) (ml : MatchingLibrary)
    {deps deps' : List Dependency}
    (h : deps.map depKey = deps'.map depKey) :
    (deps.find? (depMatches coerce sat ml)).map depKey
      = (deps'.find? (depMatches coerce sat ml)).map depKey := by
  have hfact : ∀ ds : List Dependency,
      (ds.find? (depMatches coerce sat ml)).map depKey
        = (ds.map depKey).find?
            (fun k => k.1 == ml.name &&
              versionMatches coerce sat k.2 ml.versionRange) := by
    intro ds
    rw [List.find?_map]
    rfl
  rw [hfact, hfact, h]

/-- `findAcrossLibraries` only depends on dependencies through `depKey`. -/
theorem findAcrossLibraries_map_depKey
    (coerce : String → JSResult (Option String))
    (sat : String → String → JSResult Bool)
    {deps deps' : List Dependency}
    (h : deps.map depKey = deps'.map depKey) :
    ∀ mls : List MatchingLibrary,
      (findAcrossLibraries coerce sat deps mls).map depKey
        = (findAcrossLibraries coerce sat deps' mls).map depKey := by
  intro mls
  induction mls with
  | nil => rfl
  | cons ml rest ih =>
    have hfind := find?_depMatches_map_depKey coerce sat ml h
    unfold findAcrossLibraries
    cases h1 : deps.find? (depMatches coerce sat ml) with
    | none =>
      cases h2 : deps'.find? (depMatches coerce sat ml) with
      | none => exact ih
      | some d' => rw [h1, h2] at hfind; simp at hfind
    | some d =>
      cases h2 : deps'.find? (depMatches coerce sat ml) with
      | none => rw [h1, h2] at hfind; simp at hfind
      | some d' => rw [h1, h2] at hfind; simpa using hfind

/-- C10: the match set does not depend on the `isDev` flag of any
dependency: for dependency lists that agree on names and versions
(in particular, after flipping `isDev` flags arbitrarily), `matchSkills`
produces the same skill-to-dependency pairings up to the `isDev` field,
so devDependencies satisfy skill requirements on equal footing. -/
theorem matchSkills_ignores_isDev
    (coerce : String → JSResult (Option String))
    (sat : String → String → JSResult Bool)
    (deps deps' : List Dependency) (idx : SkillsIndex)
    (h : deps.map depKey = deps'.map depKey) :
    (matchSkills coerce sat deps idx).map
        (fun m => (m.skill, depKey m.dependency))
      = (matchSkills coerce sat deps' idx).map
        (fun m => (m.skill, depKey m.dependency)) := by
  unfold matchSkills
  rw [List.map_filterMap, List.map_filterMap]
  apply List.filterMap_congr
  intro s _
  have hshape : ∀ ds : List Dependency,
      ((findMatchingDependency coerce sat s ds).map
        (fun d => MatchedSkill.mk s d)).map
          (fun m => (m.skill, depKey m.dependency))
      = ((findMatchingDependency coerce sat s ds).map depKey).map
          (fun k => (s, k)) := by
    intro ds
    cases findMatchingDependency coerce sat s ds <;> rfl
  rw [hshape, hshape, findMatchingDependency, findMatchingDependency,
    findAcrossLibraries_map_depKey coerce sat h]

/-- Witness for C10: flipping `isDev` on the only dependency leaves the
pairings unchanged. -/
theorem matchSkills_ignores_isDev_witness :
    (matchSkills coerceNone satNever [depReact] idxTest).map
        (fun m => (m.skill, depKey m.dependency))
      = (matchSkills coerceNone satNever [depReactDev] idxTest).map
        (fun m => (m.skill, depKey m.dependency)) :=
  matchSkills_ignores_isDev coerceNone satNever [depReact] [depReactDev]
    idxTest rfl

/-! ## Claims about the installer -/

/-- Reading after a write: the written path returns the new content and
every other path is untouched. -/
theorem lookupFS_writeFS (fs : FS) (p : Path) (c : String) (q : Path) :
    lookupFS (writeFS fs p c) q = if q = p then some c else lookupFS fs q := by
  induction fs with
  | nil =>
    simp only [writeFS, lookupFS]
    by_cases h : p = q
    · subst h; simp
    · rw [if_neg h, if_neg (fun hq => h hq.symm)]
  | cons e rest ih =>
    simp only [writeFS]
    by_cases h : e.1 = p
    · rw [if_pos h]
      simp only [lookupFS]
      by_cases hq : q = p
      · subst hq; simp [h]
      · rw [if_neg (fun hh => hq hh.symm), if_neg hq, if_neg (h ▸ fun hh => hq hh.symm)]
    · rw [if_neg h]
      simp only [lookupFS, ih]
      by_cases hq : q = p
      · subst hq; rw [if_pos rfl, if_pos rfl, if_neg (fun hh => h hh)]
      · rw [if_neg hq, if_neg hq]

/-- Writing to an existing path does not change the set of paths. -/
theorem keysFS_writeFS_of_mem {fs : FS} {p : Path} (c : String)
    (h : p ∈ keysFS fs) : keysFS (writeFS fs p c) = keysFS fs := by
  induction fs with
  | nil => simp [keysFS] at h
  | cons e rest ih =>
    simp only [keysFS, List.map_cons, List.mem_cons] at h
    simp only [writeFS]
    by_cases he : e.1 = p
    · rw [if_pos he]; simp [keysFS, he]
    · rw [if_neg he]
      rcases h with h | h
      · exact absurd h.symm he
      · simp only [keysFS, List.map_cons]
        rw [show (writeFS rest p c).map Prod.fst = keysFS (writeFS rest p c) from rfl,
          ih h]
        rfl

/-- A written path is present afterwards. -/
theorem mem_keysFS_writeFS (fs : FS) (p : Path) (c : String) :
    p ∈ keysFS (writeFS fs p c) := by
  induction fs with
  | nil => simp [writeFS, keysFS]
  | cons e rest ih =>
    simp only [writeFS]
    by_cases he : e.1 = p
    · rw [if_pos he]; simp [keysFS]
    · rw [if_neg he]
      simp only [keysFS, List.map_cons, List.mem_cons]
      exact Or.inr ih

/-- Evaluation of `installSkill` on the downloader's singleton files
map: exactly one write, at the per-skill nested path. -/
theorem installSkill_eval (fs : FS) (skill : Skill) (target : Target)
    (c : String) :
    installSkill fs skill (downloaderFiles c) target
      = (writeFS fs (skillFilePath skill target) c,
         [skillFilePath skill target]) := rfl

/-- C2 counterexample: at a concrete skill and target, the single
written file is `<target>/<skill-id>/SKILL.md` — it is not a file named
`<skill-id>.<extension>` placed directly inside the target's resolved
path, for any extension. -/
theorem installSkill_path_not_flat :
    (installSkill [] skillNested (downloaderFiles "BODY") targetCursor).2
      = [["proj", ".cursor", "skills", "zod-validation", "SKILL.md"]]
    ∧ ¬ ∃ ext : String,
        (installSkill [] skillNested (downloaderFiles "BODY") targetCursor).2
          = [targetCursor.path ++ [skillNested.id ++ "." ++ ext]] := by
  constructor
  · rfl
  · rintro ⟨ext, h⟩
    simp [installSkill, downloaderFiles, skillFilePath, skillDirectory,
      skillNested, targetCursor, writeFS] at h

/-- C2 amended: for every skill and target, installation performs
exactly one write (the downloader's files map has a single entry), whose
path is the fixed filename `SKILL.md` nested inside a per-skill
subdirectory named by the skill's id inside the target's resolved path. -/
theorem installSkill_writes_single_nested_file (fs : FS) (skill : Skill)
    (target : Target) (c : String) :
    installSkill fs skill (downloaderFiles c) target
      = (writeFS fs (target.path ++ [skill.id, "SKILL.md"]) c,
         [target.path ++ [skill.id, "SKILL.md"]]) := by
  rw [installSkill_eval]
  simp [skillFilePath, skillDirectory]

/-- C8: installing the same skill twice into the same target writes to
the identical path both times — a deterministic function of the skill's
id and the target's path — so the second install overwrites in place:
the path list returned is the same, the set of filesystem paths does not
grow, and the file holds the second content. -/
theorem installSkill_idempotent_per_skill_target (fs : FS) (skill : Skill)
    (target : Target) (c₁ c₂ : String) :
    (installSkill (installSkill fs skill (downloaderFiles c₁) target).1
        skill (downloaderFiles c₂) target).2
      = (installSkill fs skill (downloaderFiles c₁) target).2
    ∧ (installSkill fs skill (downloaderFiles c₁) target).2
      = [target.path ++ [skill.id, "SKILL.md"]]
    ∧ keysFS (installSkill (installSkill fs skill (downloaderFiles c₁) target).1
        skill (downloaderFiles c₂) target).1
      = keysFS (installSkill fs skill (downloaderFiles c₁) target).1
    ∧ lookupFS (installSkill (installSkill fs skill (downloaderFiles c₁) target).1
        skill (downloaderFiles c₂) target).1 (skillFilePath skill target)
      = some c₂ := by
  refine ⟨rfl, ?_, ?_, ?_⟩
  · rw [installSkill_eval]
    simp [skillFilePath, skillDirectory]
  · rw [installSkill_eval, installSkill_eval]
    exact keysFS_writeFS_of_mem c₂ (mem_keysFS_writeFS fs _ c₁)
  · rw [installSkill_eval, installSkill_eval, lookupFS_writeFS, if_pos rfl]

/-! ## Claims about the installation pipeline -/

/-- A file that already holds the skill content keeps it across the
remaining target installs of the same content. -/
theorem lookup_installToTargets_same_content
    (fault : Skill → Target → Option String) (skill : Skill) (c : String)
    (ts : List Target) (p : Path) :
    ∀ fs : FS, lookupFS fs p = some c →
      lookupFS (installToTargets fault skill (downloaderFiles c) ts fs).fs p
        = some c := by
  induction ts with
  | nil => intro fs h; exact h
  | cons t rest ih =>
    intro fs h
    unfold installToTargets
    cases fault skill t with
    | some e => exact h
    | none =>
      rw [installSkill_eval]
      apply ih
      rw [lookupFS_writeFS]
      by_cases hp : p = skillFilePath skill t
      · rw [if_pos hp]
      · rw [if_neg hp]; exact h

/-- The per-skill target loop raises no error exactly when no write
faults. -/
theorem installToTargets_error_none_iff
    (fault : Skill → Target → Option String) (skill : Skill)
    (files : List (String × String)) (ts : List Target) :
    ∀ fs : FS, ((installToTargets fault skill files ts fs).error = none ↔
      ∀ t ∈ ts, fault skill t = none) := by
  induction ts with
  | nil => intro fs; simp [installToTargets]
  | cons t rest ih =>
    intro fs
    unfold installToTargets
    cases hf : fault skill t with
    | some e =>
      simp only [Option.some_ne_none, false_iff]
      intro hall
      exact absurd (hall t (List.mem_cons_self t rest)) (by simp [hf])
    | none =>
      simp only [ih]
      constructor
      · intro hall t' ht'
        rcases List.mem_cons.mp ht' with rfl | ht'
        · exact hf
        · exact hall t' ht'
      · intro hall t' ht'
        exact hall t' (List.mem_cons_of_mem _ ht')

/-- With no write faults, the target loop writes the skill's single
content file to every target, in target order. -/
theorem installToTargets_all_ok
    (fault : Skill → Target → Option String) (skill : Skill) (c : String)
    (ts : List Target) :
    ∀ fs : FS, (∀ t ∈ ts, fault skill t = none) →
      (installToTargets fault skill (downloaderFiles c) ts fs).error = none
      ∧ (installToTargets fault skill (downloaderFiles c) ts fs).paths
          = ts.map (fun t => skillFilePath skill t)
      ∧ ∀ t ∈ ts,
          lookupFS (installToTargets fault skill (downloaderFiles c) ts fs).fs
            (skillFilePath skill t) = some c := by
  induction ts with
  | nil => intro fs _; exact ⟨rfl, rfl, by simp⟩
  | cons t rest ih =>
    intro fs hfault
    have hft : fault skill t = none := hfault t (List.mem_cons_self t rest)
    have hfr : ∀ t' ∈ rest, fault skill t' = none :=
      fun t' ht' => hfault t' (List.mem_cons_of_mem _ ht')
    obtain ⟨he, hp, hl⟩ := ih (writeFS fs (skillFilePath skill t) c) hfr
    unfold installToTargets
    simp only [hft, installSkill_eval]
    refine ⟨he, ?_, ?_⟩
    · rw [hp]; simp
    · intro t' ht'
      rcases List.mem_cons.mp ht' with rfl | ht'
      · exact lookup_installToTargets_same_content fault skill c rest _ _
          (by rw [lookupFS_writeFS, if_pos rfl])
      · exact hl t' ht'

/-- C1 counterexample: a concrete selected skill whose content fetch
succeeds, yet — because the write to the first target throws — the
second target in the resolved target list never receives the skill. -/
theorem fetchSuccess_not_all_targets_written :
    fetchRQ skillRQ = .ok (downloaderFiles "RQ-BODY")
    ∧ lookupFS
        (performInstallation fetchRQ faultFirst [matchRQ]
          [targetW1, targetW2] []).fs
        (skillFilePath skillRQ targetW2) = none := by
  constructor
  · rfl
  · rfl

/-- C1 amended: for a selected skill whose content fetch succeeds, the
installation step writes the same fetched content to every target in
the resolved target list — there is no per-target selection — provided
no write throws; the run counts the skill as one success and records
one written path per target, in target order. -/
theorem install_writes_all_targets_when_writes_ok
    (fetch : Skill → JSResult (List (String × String)))
    (fault : Skill → Target → Option String) (m : MatchedSkill)
    (targets : List Target) (fs : FS) (c : String)
    (hfetch : fetch m.skill = .ok (downloaderFiles c))
    (hfault : ∀ t ∈ targets, fault m.skill t = none) :
    (performInstallation fetch fault [m] targets fs).count = 1
    ∧ (performInstallation fetch fault [m] targets fs).installedFiles
        = targets.map (fun t => skillFilePath m.skill t)
    ∧ ∀ t ∈ targets,
        lookupFS (performInstallation fetch fault [m] targets fs).fs
          (skillFilePath m.skill t) = some c := by
  obtain ⟨he, hp, hl⟩ := installToTargets_all_ok fault m.skill c targets fs hfault
  have heval : performInstallation fetch fault [m] targets fs
      = ⟨(installToTargets fault m.skill (downloaderFiles c) targets fs).fs, 1,
         (installToTargets fault m.skill (downloaderFiles c) targets fs).paths,
         []⟩ := by
    conv_lhs => rw [performInstallation]
    simp only [hfetch]
    rw [he]
    simp [performInstallation]
  rw [heval, hp]
  exact ⟨rfl, rfl, hl⟩

/-- Witness for C1 amended at a concrete fault-free two-target run. -/
theorem install_writes_all_targets_when_writes_ok_witness :
    (performInstallation fetchRQ faultNone [matchRQ] [targetW1, targetW2] []).count = 1
    ∧ (performInstallation fetchRQ faultNone [matchRQ]
        [targetW1, targetW2] []).installedFiles
        = [targetW1, targetW2].map (fun t => skillFilePath matchRQ.skill t)
    ∧ ∀ t ∈ [targetW1, targetW2],
        lookupFS (performInstallation fetchRQ faultNone [matchRQ]
          [targetW1, targetW2] []).fs
          (skillFilePath matchRQ.skill t) = some "RQ-BODY" :=
  install_writes_all_targets_when_writes_ok fetchRQ faultNone matchRQ
    [targetW1, targetW2] [] "RQ-BODY" rfl (by intro t _; rfl)

/-- C3 counterexample: the write of a concrete skill to the first
target throws; the second target is never attempted (its file stays
absent even though its own write would have succeeded) and the skill is
not counted as succeeded even though its content fetch succeeded. -/
theorem writeFailure_aborts_targets_and_marks_skill_failed :
    fetchZu skillZu = .ok (downloaderFiles "ZU-BODY")
    ∧ faultZ skillZu targetZ2 = none
    ∧ (performInstallation fetchZu faultZ [matchZu]
        [targetZ1, targetZ2] []).count = 0
    ∧ lookupFS (performInstallation fetchZu faultZ [matchZu]
        [targetZ1, targetZ2] []).fs (skillFilePath skillZu targetZ2) = none := by
  refine ⟨rfl, ?_, ?_, ?_⟩ <;> decide

/-- C3 amended: failure isolation is per skill, not per target: a skill
is counted as succeeded exactly when its fetch returned and none of its
target writes threw (so a write failure is not independent of the
outcome), and the first throwing write aborts the remaining targets of
that same skill while later skills are unaffected — the success count is
a pointwise filter over the selected skills. -/
theorem per_skill_failure_isolation :
    (∀ (fetch : Skill → JSResult (List (String × String)))
        (fault : Skill → Target → Option String)
        (sel : List MatchedSkill) (targets : List Target) (fs : FS),
        (performInstallation fetch fault sel targets fs).count
          = (sel.filter (fun m => exceptOk (fetch m.skill)
              && targets.all (fun t => (fault m.skill t).isNone))).length)
    ∧ (∀ (fault : Skill → Target → Option String) (skill : Skill)
        (files : List (String × String)) (ts₁ : List Target) (t : Target)
        (ts₂ : List Target) (fs : FS) (e : String),
        (∀ t' ∈ ts₁, fault skill t' = none) → fault skill t = some e →
        installToTargets fault skill files (ts₁ ++ t :: ts₂) fs
          = ⟨(installToTargets fault skill files ts₁ fs).fs,
             (installToTargets fault skill files ts₁ fs).paths, some e⟩) := by
  constructor
  · intro fetch fault sel targets
    induction sel with
    | nil => intro fs; rfl
    | cons m ms ih =>
      intro fs
      unfold performInstallation
      cases hf : fetch m.skill with
      | error e =>
        simp only [List.filter_cons, exceptOk, hf, Bool.false_and,
          List.length_cons]
        exact ih fs
      | ok files =>
        simp only []
        have hiff := installToTargets_error_none_iff fault m.skill files targets fs
        by_cases hall : ∀ t ∈ targets, fault m.skill t = none
        · have he : (installToTargets fault m.skill files targets fs).error = none :=
            hiff.mpr hall
          rw [he]
          simp only [List.filter_cons, exceptOk, hf, Bool.true_and]
          rw [if_pos (by
            rw [List.all_eq_true]
            intro t ht
            rw [Option.isNone_iff_eq_none]
            exact hall t ht)]
          simp only [List.length_cons]
          rw [ih]
          rfl
        · cases he : (installToTargets fault m.skill files targets fs).error with
          | none => exact absurd (hiff.mp he) hall
          | some e =>
            simp only []
            simp only [List.filter_cons, exceptOk, hf, Bool.true_and]
            rw [if_neg (by
              intro hb
              apply hall
              intro t ht
              rw [← Option.isNone_iff_eq_none]
              exact List.all_eq_true.mp hb t ht)]
            exact ih _
  · intro fault skill files ts₁ t ts₂ fs e h1 h2
    revert h1
    induction ts₁ generalizing fs with
    | nil =>
      intro _
      simp only [List.nil_append]
      unfold installToTargets
      simp only [h2]
    | cons t' rest ih =>
      intro h1
      have hft' : fault skill t' = none := h1 t' (List.mem_cons_self t' rest)
      have hrest : ∀ x ∈ rest, fault skill x = none :=
        fun x hx => h1 x (List.mem_cons_of_mem _ hx)
      simp only [List.cons_append]
      unfold installToTargets
      simp only [hft']
      rw [ih _ hrest]

/-- Witness for C3 amended: the success-count filter and the
early-abort equation at concrete inputs. -/
theorem per_skill_failure_isolation_witness :
    ((performInstallation fetchZu faultZ [matchZu] [targetZ1, targetZ2] []).count
      = ([matchZu].filter (fun m => exceptOk (fetchZu m.skill)
          && [targetZ1, targetZ2].all
            (fun t => (faultZ m.skill t).isNone))).length)
    ∧ installToTargets faultZ skillZu (downloaderFiles "ZU-BODY")
        ([] ++ targetZ1 :: [targetZ2]) []
        = ⟨(installToTargets faultZ skillZu (downloaderFiles "ZU-BODY") [] []).fs,
           (installToTargets faultZ skillZu (downloaderFiles "ZU-BODY") [] []).paths,
           some "ENOSPC"⟩ :=
  ⟨per_skill_failure_isolation.1 fetchZu faultZ [matchZu] [targetZ1, targetZ2] [],
   per_skill_failure_isolation.2 faultZ skillZu (downloaderFiles "ZU-BODY")
     [] targetZ1 [targetZ2] [] "ENOSPC" (by simp) (by decide)⟩

/-- C4: when a selected skill's content fetch fails, a failed result is
logged for that skill and the pipeline continues with the remaining
skills unchanged: the success count, written paths, and filesystem equal
those of the run without the failed skill, and the run still ends in the
terminal `done` state carrying the aggregate count and written paths
rather than aborting. -/
theorem fetch_failure_isolated_run_completes
    (fetch : Skill → JSResult (List (String × String)))
    (fault : Skill → Target → Option String) (m : MatchedSkill)
    (ms : List MatchedSkill) (targets : List Target) (fs : FS) (e : String)
    (hf : fetch m.skill = .error e) :
    (performInstallation fetch fault (m :: ms) targets fs).count
      = (performInstallation fetch fault ms targets fs).count
    ∧ (performInstallation fetch fault (m :: ms) targets fs).installedFiles
      = (performInstallation fetch fault ms targets fs).installedFiles
    ∧ (performInstallation fetch fault (m :: ms) targets fs).errors
      = failureMessage m.skill e
          :: (performInstallation fetch fault ms targets fs).errors
    ∧ (performInstallation fetch fault (m :: ms) targets fs).fs
      = (performInstallation fetch fault ms targets fs).fs
    ∧ runInstallingState fetch fault (AppState.installing (m :: ms) targets) fs
      = (AppState.done
          (performInstallation fetch fault (m :: ms) targets fs).count
          (performInstallation fetch fault (m :: ms) targets fs).installedFiles,
         (performInstallation fetch fault (m :: ms) targets fs).fs) := by
  refine ⟨?_, ?_, ?_, ?_, rfl⟩ <;>
    · conv_lhs => rw [performInstallation]
      rw [hf]

/-- Witness for C4: skill A's fetch fails, skill B's succeeds; the run
reports B's success and paths and ends in `done`. -/
theorem fetch_failure_isolated_run_completes_witness :
    (performInstallation fetchAB faultNone
        [⟨skillA, depReact⟩, ⟨skillB, depReact⟩] [targetCursor] []).count
      = (performInstallation fetchAB faultNone
          [⟨skillB, depReact⟩] [targetCursor] []).count
    ∧ (performInstallation fetchAB faultNone
        [⟨skillA, depReact⟩, ⟨skillB, depReact⟩] [targetCursor] []).installedFiles
      = (performInstallation fetchAB faultNone
          [⟨skillB, depReact⟩] [targetCursor] []).installedFiles
    ∧ (performInstallation fetchAB faultNone
        [⟨skillA, depReact⟩, ⟨skillB, depReact⟩] [targetCursor] []).errors
      = failureMessage skillA "HTTP 404"
          :: (performInstallation fetchAB faultNone
            [⟨skillB, depReact⟩] [targetCursor] []).errors
    ∧ (performInstallation fetchAB faultNone
        [⟨skillA, depReact⟩, ⟨skillB, depReact⟩] [targetCursor] []).fs
      = (performInstallation fetchAB faultNone
          [⟨skillB, depReact⟩] [targetCursor] []).fs
    ∧ runInstallingState fetchAB faultNone
        (AppState.installing [⟨skillA, depReact⟩, ⟨skillB, depReact⟩]
          [targetCursor]) []
      = (AppState.done
          (performInstallation fetchAB faultNone
            [⟨skillA, depReact⟩, ⟨skillB, depReact⟩] [targetCursor] []).count
          (performInstallation fetchAB faultNone
            [⟨skillA, depReact⟩, ⟨skillB, depReact⟩] [targetCursor] []).installedFiles,
         (performInstallation fetchAB faultNone
           [⟨skillA, depReact⟩, ⟨skillB, depReact⟩] [targetCursor] []).fs) :=
  fetch_failure_isolated_run_completes fetchAB faultNone ⟨skillA, depReact⟩
    [⟨skillB, depReact⟩] [targetCursor] [] "HTTP 404" rfl

/-- C9: confirming the interactive selection with an empty subset
submits the empty list, transitions directly to the terminal `done`
state with a zero count and no listed files — never entering the
`installing` state — and performs no filesystem writes. -/
theorem empty_selection_done_zero_no_writes
    (fetch : Skill → JSResult (List (String × String)))
    (fault : Skill → Target → Option String)
    (items : List (String × MatchedSkill)) (targets : List Target) (fs : FS) :
    checkboxSubmit items [] = []
    ∧ onSubmitSelection (checkboxSubmit items []) targets = AppState.done 0 []
    ∧ runFromSubmit fetch fault (checkboxSubmit items []) targets fs
      = (AppState.done 0 [], fs) := by
  have hempty : checkboxSubmit items ([] : List Nat) = [] := by
    simp [checkboxSubmit]
  refine ⟨hempty, ?_, ?_⟩
  · rw [hempty]; rfl
  · rw [runFromSubmit, hempty]; rfl

end HelpMeAI
